import Mathlib

/-!
Verification of the YOLO detection post-processing pipeline of
ILearnMachineLearning.js.

The repository's `src/containers/ImageLoader.tsx` holds the consumer side of
the pipeline (`predict`): score pre-filtering with a hard-coded 0.01
threshold, scaling of corner boxes by the model-input pixel size, greedy
non-maximum suppression, the per-detection display threshold, boundary
clamping and the construction of the final detection records.  The tensor
utilities it calls (`YoloDataProcessingUtil.yoloHead`, `filterBoxes`,
`nonMaxSuppression`) live outside the given sources, so those stages are
modelled from the specification, as marked on each definition.

Numbers are embedded as rationals (`ℚ`); the squashing functions
(logistic sigmoid, exponential) of the grid decoder are abstracted as
function parameters, since only the structure of the decoding formulas is
at stake.
-/

/-- Corner-form box `{top, left, bottom, right}` (`boxesArr[i]` of
`ImageLoader.predict`, order of destructuring at line 106). -/
structure CornerBox where
  top : ℚ
  left : ℚ
  bottom : ℚ
  right : ℚ
deriving DecidableEq

/-- Anchor prior `(width, height)` in grid-cell units. -/
structure Anchor where
  width : ℚ
  height : ℚ
deriving DecidableEq

/-- Decoded per-anchor prediction: geometry, objectness confidence and
per-class probabilities. -/
structure DecodedBox where
  centerX : ℚ
  centerY : ℚ
  width : ℚ
  height : ℚ
  confidence : ℚ
  classProbs : List ℚ
deriving DecidableEq

/-- A corner box together with its selected class and score; bundles the
parallel arrays `boxesArr`, `classesIndxArr`, `keepScores` of `predict`. -/
structure ScoredBox where
  box : CornerBox
  classIndex : ℕ
  score : ℚ
deriving DecidableEq

/-- `IRect` of `src/interfaces/IRect`. -/
structure IRect where
  x : ℚ
  y : ℚ
  width : ℚ
  height : ℚ
deriving DecidableEq

/-- `IDetectedObject` of `src/interfaces/IDetectedObject` (the source field
`class` is a reserved word here, kept as `className`). -/
structure IDetectedObject where
  className : String
  probability : ℚ
  rect : IRect
deriving DecidableEq

/-- Modelled from the spec: `CoordinateMapper.toCorners` converts a
center-form box to corner form (`YoloDataProcessingUtil.boxesToCorners` is
not among the given sources). -/
def toCorners (b : DecodedBox) : CornerBox :=
  { top := b.centerY - b.height / 2
    left := b.centerX - b.width / 2
    bottom := b.centerY + b.height / 2
    right := b.centerX + b.width / 2 }

/-- Scaling step of `predict` (lines 78–83): corner boxes are multiplied by
`[height, width, height, width]`; the crop is square so both equal the
model input pixel size. -/
def scaleToImage (b : CornerBox) (imageWidth imageHeight : ℚ) : CornerBox :=
  { top := b.top * imageHeight
    left := b.left * imageWidth
    bottom := b.bottom * imageHeight
    right := b.right * imageWidth }

/-- Largest element of a list of scores (0 for the empty list). -/
def maxVal : List ℚ → ℚ
  | [] => 0
  | x :: xs => xs.foldl max x

/-- Index of the first maximal element (ties broken by lowest index, as
`tf.argMax` does). -/
def argmaxIdx : List ℚ → ℕ
  | [] => 0
  | [_] => 0
  | x :: xs => if maxVal xs > x then argmaxIdx xs + 1 else 0

/-- Modelled from the spec: `ScoreFilter` per-box scoring — best class by
argmax over `classProbs`, score `confidence × classProbs[classIndex]`
(`YoloDataProcessingUtil.filterBoxes` is not among the given sources). -/
def toScored (p : DecodedBox × CornerBox) : ScoredBox :=
  { box := p.2
    classIndex := argmaxIdx p.1.classProbs
    score := p.1.confidence * p.1.classProbs.getD (argmaxIdx p.1.classProbs) 0 }

/-- Modelled from the spec: `ScoreFilter.filter` keeps exactly the boxes
whose score is at least `minScore`. -/
def ScoreFilter.filter (boxes : List (DecodedBox × CornerBox)) (minScore : ℚ) :
    List ScoredBox :=
  (boxes.map toScored).filter (fun sb => decide (minScore ≤ sb.score))

/-- Modelled from the spec: `YoloDataProcessingUtil.filterBoxes` (not among
the given sources) signals "all boxes filtered out" with a `null` result,
tested by `predict` at line 74; embedded as `none`. -/
def filterBoxes (boxes : List (DecodedBox × CornerBox)) (minScore : ℚ) :
    Option (List ScoredBox) :=
  let kept := ScoreFilter.filter boxes minScore
  if kept.isEmpty then none else some kept

/-- Box area, a malformed extent (`top > bottom` or `left > right`)
counting as zero, per the spec's totality requirement. -/
def boxArea (a : CornerBox) : ℚ :=
  max 0 (a.bottom - a.top) * max 0 (a.right - a.left)

/-- Modelled from the spec: intersection area
`max(0, min(bottoms) − max(tops)) × max(0, min(rights) − max(lefts))`. -/
def intersectionArea (a b : CornerBox) : ℚ :=
  max 0 (min a.bottom b.bottom - max a.top b.top) *
    max 0 (min a.right b.right - max a.left b.left)

/-- Modelled from the spec: `IoU = intersection / (areaA + areaB −
intersection)`, total, with a non-positive union treated as IoU 0. -/
def iou (a b : CornerBox) : ℚ :=
  let inter := intersectionArea a b
  let union := boxArea a + boxArea b - inter
  if union ≤ 0 then 0 else inter / union

/-- Sorting relation of the suppressor: score descending, ties broken by
original index ascending. -/
def nmsRel (a b : ℕ × ScoredBox) : Prop :=
  b.2.score < a.2.score ∨ (a.2.score = b.2.score ∧ a.1 ≤ b.1)

instance : DecidableRel nmsRel := fun a b =>
  inferInstanceAs (Decidable (b.2.score < a.2.score ∨ (a.2.score = b.2.score ∧ a.1 ≤ b.1)))

instance : IsTotal (ℕ × ScoredBox) nmsRel where
  total a b := by
    unfold nmsRel
    rcases lt_trichotomy a.2.score b.2.score with h | h | h
    · exact Or.inr (Or.inl h)
    · rcases Nat.le_total a.1 b.1 with hi | hi
      · exact Or.inl (Or.inr ⟨h, hi⟩)
      · exact Or.inr (Or.inr ⟨h.symm, hi⟩)
    · exact Or.inl (Or.inl h)

instance : IsTrans (ℕ × ScoredBox) nmsRel where
  trans a b c hab hbc := by
    unfold nmsRel at *
    rcases hab with h1 | ⟨h1, i1⟩ <;> rcases hbc with h2 | ⟨h2, i2⟩
    · exact Or.inl (by linarith)
    · exact Or.inl (by linarith)
    · exact Or.inl (by linarith)
    · exact Or.inr ⟨by linarith, i1.trans i2⟩

/-- Modelled from the spec: step 1 of the suppressor — indices sorted by
score descending, ties by original index ascending. -/
def sortByScore (boxes : List ScoredBox) : List (ℕ × ScoredBox) :=
  List.insertionSort nmsRel boxes.enum

/-- Modelled from the spec: the greedy suppression loop — keep the head,
drop every later box whose IoU with it exceeds the threshold, recurse.
Structured with a fuel argument (initially the list length, which the
filter never increases) so the recursion is structural. -/
def nmsGo (t : ℚ) : ℕ → List (ℕ × ScoredBox) → List (ℕ × ScoredBox)
  | 0, _ => []
  | _, [] => []
  | fuel + 1, x :: rest =>
      x :: nmsGo t fuel (rest.filter (fun y => decide (iou x.2.box y.2.box ≤ t)))

/-- Modelled from the spec: the suppressor on indexed boxes. -/
def suppressIdx (boxes : List ScoredBox) (iouThreshold : ℚ) :
    List (ℕ × ScoredBox) :=
  nmsGo iouThreshold boxes.length (sortByScore boxes)

/-- Modelled from the spec: `Suppressor.suppress` =
`YoloDataProcessingUtil.nonMaxSuppression` (not among the given sources):
greedy class-agnostic NMS, output in selection order. -/
def suppress (boxes : List ScoredBox) (iouThreshold : ℚ) : List ScoredBox :=
  (suppressIdx boxes iouThreshold).map Prod.snd

/-- Boundary clamping of `predict` (lines 108–111):
`top ← max(0, top)`, `left ← max(0, left)`, `bottom ← min(maxPix, bottom)`,
`right ← min(maxPix, right)`. -/
def clampBox (maxPix : ℚ) (b : CornerBox) : CornerBox :=
  { top := max 0 b.top
    left := max 0 b.left
    bottom := min maxPix b.bottom
    right := min maxPix b.right }

/-- Construction of one `IDetectedObject` in the `forEach` of `predict`
(lines 105–122): class name looked up in the class table, probability the
kept score, rect from the clamped corners. -/
def detectionOf (classNames : List String) (maxPix : ℚ) (sb : ScoredBox) :
    IDetectedObject :=
  let c := clampBox maxPix sb.box
  { className := classNames.getD sb.classIndex ""
    probability := sb.score
    rect := { x := c.left, y := c.top,
              width := c.right - c.left, height := c.bottom - c.top } }

/-- The post-tensor part of `ImageLoader.predict` (lines 70–126): score
pre-filter at 0.01, early `[]` on a null filter result, scaling to pixel
space, non-maximum suppression, then the display threshold
(`classProbThreshold`, line 101) and detection construction. -/
def predict (classNames : List String)
    (maxPix iouThreshold classProbThreshold : ℚ)
    (candidates : List (DecodedBox × CornerBox)) : List IDetectedObject :=
  match filterBoxes candidates (1 / 100) with
  | none => []
  | some scored =>
      let scaled := scored.map
        (fun sb => { sb with box := scaleToImage sb.box maxPix maxPix })
      let kept := suppress scaled iouThreshold
      kept.filterMap (fun sb =>
        if sb.score < classProbThreshold then none
        else some (detectionOf classNames maxPix sb))

/-- Modelled from the spec: one cell of `GridDecoder.decode`
(`YoloDataProcessingUtil.yoloHead` is not among the given sources).  The
raw tensor is a function of `(row, col, anchor, channel)` with last-axis
layout `[tx, ty, tw, th, objectness, classLogits…]`; `σ` is the squashing
(sigmoid) and `e` the exponential, abstracted. -/
def decodeCell (σ e : ℚ → ℚ) (raw : ℕ → ℕ → ℕ → ℕ → ℚ)
    (anchors : List Anchor) (numClasses gridH gridW row col a : ℕ) :
    DecodedBox :=
  { centerX := (σ (raw row col a 0) + col) / gridW
    centerY := (σ (raw row col a 1) + row) / gridH
    width := (anchors.getD a ⟨0, 0⟩).width * e (raw row col a 2) / gridW
    height := (anchors.getD a ⟨0, 0⟩).height * e (raw row col a 3) / gridH
    confidence := σ (raw row col a 4)
    classProbs := (List.range numClasses).map (fun i => σ (raw row col a (5 + i))) }

/-- Modelled from the spec: `GridDecoder.decode` — one `DecodedBox` per
grid cell and anchor, row-major over cells, anchors innermost. -/
def GridDecoder.decode (σ e : ℚ → ℚ) (raw : ℕ → ℕ → ℕ → ℕ → ℚ)
    (anchors : List Anchor) (numClasses gridH gridW : ℕ) : List DecodedBox :=
  (List.range gridH).flatMap (fun row =>
    (List.range gridW).flatMap (fun col =>
      (List.range anchors.length).map (fun a =>
        decodeCell σ e raw anchors numClasses gridH gridW row col a)))

/-! ## Helper lemmas -/

theorem intersectionArea_nonneg (a b : CornerBox) : 0 ≤ intersectionArea a b :=
  mul_nonneg (le_max_left 0 _) (le_max_left 0 _)

theorem intersectionArea_le_left (a b : CornerBox) :
    intersectionArea a b ≤ boxArea a := by
  unfold intersectionArea boxArea
  refine mul_le_mul ?_ ?_ (le_max_left 0 _) (le_max_left 0 _)
  · exact max_le_max le_rfl (sub_le_sub (min_le_left _ _) (le_max_left _ _))
  · exact max_le_max le_rfl (sub_le_sub (min_le_left _ _) (le_max_left _ _))

theorem iou_eq_zero_of_boxArea_left (a b : CornerBox) (h : boxArea a = 0) :
    iou a b = 0 := by
  have hI : intersectionArea a b = 0 :=
    le_antisymm (h ▸ intersectionArea_le_left a b) (intersectionArea_nonneg a b)
  unfold iou
  dsimp only
  rw [hI]
  split
  · rfl
  · exact zero_div _

/-! ## C1 — clamping and the corner-order invariant -/

/-- C1 counterexample: the box `{top := -2, left := 0, bottom := -1,
right := 1}` satisfies `top ≤ bottom` and `left ≤ right`, yet after the
consumer-boundary clamping with `maxPix = 416` the result has
`top' = 0 > bottom' = -1`, so the claimed invariant fails. -/
theorem clampBox_order_counterexample :
    (⟨-2, 0, -1, 1⟩ : CornerBox).top ≤ (⟨-2, 0, -1, 1⟩ : CornerBox).bottom ∧
    (⟨-2, 0, -1, 1⟩ : CornerBox).left ≤ (⟨-2, 0, -1, 1⟩ : CornerBox).right ∧
    ¬ (clampBox 416 ⟨-2, 0, -1, 1⟩).top ≤ (clampBox 416 ⟨-2, 0, -1, 1⟩).bottom := by
  refine ⟨by norm_num, by norm_num, ?_⟩
  norm_num [clampBox]

/-- C1 (amended): for a box with `top ≤ bottom` and `left ≤ right` whose
vertical extent meets `[0, maxPix]` (`0 ≤ bottom`, `top ≤ maxPix`) and
whose horizontal extent does too (`0 ≤ right`, `left ≤ maxPix`), with
`0 ≤ maxPix`, the clamping of `predict` (lines 108–111) preserves
`top ≤ bottom` and `left ≤ right`. -/
theorem clampBox_preserves_order (maxPix : ℚ) (b : CornerBox)
    (hmax : 0 ≤ maxPix) (htb : b.top ≤ b.bottom) (hlr : b.left ≤ b.right)
    (hb : 0 ≤ b.bottom) (ht : b.top ≤ maxPix)
    (hr : 0 ≤ b.right) (hl : b.left ≤ maxPix) :
    (clampBox maxPix b).top ≤ (clampBox maxPix b).bottom ∧
    (clampBox maxPix b).left ≤ (clampBox maxPix b).right := by
  exact ⟨max_le (le_min hmax hb) (le_min ht htb),
    max_le (le_min hmax hr) (le_min hl hlr)⟩

/-- Witness for the amended C1 at `maxPix = 416`,
`box = {top := 10, left := 20, bottom := 30, right := 40}`. -/
theorem clampBox_preserves_order_witness :
    (clampBox 416 ⟨10, 20, 30, 40⟩).top ≤ (clampBox 416 ⟨10, 20, 30, 40⟩).bottom ∧
    (clampBox 416 ⟨10, 20, 30, 40⟩).left ≤ (clampBox 416 ⟨10, 20, 30, 40⟩).right :=
  clampBox_preserves_order 416 ⟨10, 20, 30, 40⟩ (by norm_num) (by norm_num)
    (by norm_num) (by norm_num) (by norm_num) (by norm_num) (by norm_num)

/-! ## C7 — score-filter threshold monotonicity -/

/-- C7: raising `minScore` never enlarges `ScoreFilter.filter`'s output —
for `s1 ≤ s2` the boxes kept at `s2` are at most as many as those kept at
`s1`, a box being kept exactly when
`score = confidence × classProbs[classIndex] ≥ minScore`. -/
theorem scoreFilter_length_antitone (boxes : List (DecodedBox × CornerBox))
    (s1 s2 : ℚ) (h : s1 ≤ s2) :
    (ScoreFilter.filter boxes s2).length ≤ (ScoreFilter.filter boxes s1).length := by
  unfold ScoreFilter.filter
  refine List.Sublist.length_le ?_
  refine List.monotone_filter_right _ ?_
  intro sb hsb
  exact decide_eq_true (le_trans h (of_decide_eq_true hsb))

/-- Witness for C7: a single candidate of score 1 is kept at
`minScore = 0` but dropped at `minScore = 2`. -/
theorem scoreFilter_length_antitone_witness :
    (ScoreFilter.filter [(⟨0, 0, 0, 0, 1, [1]⟩, ⟨0, 0, 1, 1⟩)] 2).length ≤
      (ScoreFilter.filter [(⟨0, 0, 0, 0, 1, [1]⟩, ⟨0, 0, 1, 1⟩)] 0).length :=
  scoreFilter_length_antitone [(⟨0, 0, 0, 0, 1, [1]⟩, ⟨0, 0, 1, 1⟩)] 0 2
    (by norm_num)

/-! ## C8 — IoU formula, totality, degenerate boxes, examples -/

/-- C8: `iou` is the total function
`intersection / (areaA + areaB − intersection)` with the spec's
intersection formula; a zero-area box, in particular a malformed one
(`top > bottom`), has IoU 0 with any box; two identical unit boxes have
IoU 1, disjoint boxes have IoU 0, and a box fully containing a half-area
box has IoU 1/2. -/
theorem iou_spec :
    (∀ a b : CornerBox, boxArea a = 0 → iou a b = 0) ∧
    (∀ a b : CornerBox, a.bottom < a.top → iou a b = 0) ∧
    iou ⟨0, 0, 1, 1⟩ ⟨0, 0, 1, 1⟩ = 1 ∧
    iou ⟨0, 0, 1, 1⟩ ⟨0, 2, 1, 3⟩ = 0 ∧
    iou ⟨0, 0, 1, 1⟩ ⟨0, 0, 1 / 2, 1⟩ = 1 / 2 := by
  refine ⟨iou_eq_zero_of_boxArea_left, ?_, ?_, ?_, ?_⟩
  · intro a b hab
    refine iou_eq_zero_of_boxArea_left a b ?_
    unfold boxArea
    rw [max_eq_left (by linarith : a.bottom - a.top ≤ 0), zero_mul]
  · norm_num [iou, intersectionArea, boxArea]
  · norm_num [iou, intersectionArea, boxArea]
  · norm_num [iou, intersectionArea, boxArea]

/-- Witness for C8 at a concrete degenerate box: the zero-area box
`{top := 0, left := 0, bottom := 0, right := 5}` has IoU 0 with the unit
box. -/
theorem iou_spec_witness :
    iou ⟨0, 0, 0, 5⟩ ⟨0, 0, 1, 1⟩ = 0 :=
  iou_spec.1 ⟨0, 0, 0, 5⟩ ⟨0, 0, 1, 1⟩ (by norm_num [boxArea])

/-! ## C2 — empty result when everything is filtered out -/

/-- C2: when the score pre-filter removes every candidate (the stage
`predict` tests as a null result at line 74), `predict` returns the empty
list — a normal value, not an error. -/
theorem predict_empty_of_all_filtered (classNames : List String)
    (maxPix iouT ct : ℚ) (candidates : List (DecodedBox × CornerBox))
    (h : ScoreFilter.filter candidates (1 / 100) = []) :
    predict classNames maxPix iouT ct candidates = [] := by
  unfold predict filterBoxes
  simp only [one_div] at h ⊢
  simp [h]

/-- Witness for C2: a candidate with zero confidence scores 0 < 0.01, so
the filter removes everything and `predict` returns `[]`. -/
theorem predict_empty_of_all_filtered_witness :
    predict ["person"] 416 (1 / 2) (1 / 2) [(⟨0, 0, 0, 0, 0, [0]⟩, ⟨0, 0, 1, 1⟩)] = [] :=
  predict_empty_of_all_filtered ["person"] 416 (1 / 2) (1 / 2)
    [(⟨0, 0, 0, 0, 0, [0]⟩, ⟨0, 0, 1, 1⟩)]
    (by norm_num [ScoreFilter.filter, toScored, argmaxIdx, maxVal, List.filter])

/-! ## C3 — shape of the surviving detections -/

/-- C3: when the pre-filter reports survivors, `predict` maps each box
that survives suppression and the display threshold through
`detectionOf`; and `detectionOf` yields exactly
`className = classNames[classIndex]`, `probability = score`, and a rect
with `x = left`, `y = top`, `width = right − left`, `height = bottom − top`
computed from the clamped corner coordinates. -/
theorem predict_detection_fields (classNames : List String)
    (maxPix iouT ct : ℚ) (candidates : List (DecodedBox × CornerBox))
    (scored : List ScoredBox)
    (hf : filterBoxes candidates (1 / 100) = some scored)
    (sb : ScoredBox) (hidx : sb.classIndex < classNames.length) :
    predict classNames maxPix iouT ct candidates =
      (suppress (scored.map fun s => { s with box := scaleToImage s.box maxPix maxPix }) iouT).filterMap
        (fun s => if s.score < ct then none else some (detectionOf classNames maxPix s)) ∧
    detectionOf classNames maxPix sb =
      { className := classNames[sb.classIndex]
        probability := sb.score
        rect := { x := max 0 sb.box.left, y := max 0 sb.box.top,
                  width := min maxPix sb.box.right - max 0 sb.box.left,
                  height := min maxPix sb.box.bottom - max 0 sb.box.top } } := by
  constructor
  · unfold predict
    rw [hf]
  · unfold detectionOf clampBox
    rw [List.getD_eq_getElem _ _ hidx]

/-- Witness for C3: one candidate of score 1 passes the pre-filter; its
detection record is spelled out field by field. -/
theorem predict_detection_fields_witness :
    predict ["person"] 416 (1 / 2) (1 / 2) [(⟨1 / 2, 1 / 2, 1, 1, 1, [1]⟩, ⟨0, 0, 1, 1⟩)] =
      (suppress (([⟨⟨0, 0, 1, 1⟩, 0, 1⟩] : List ScoredBox).map fun s =>
          { s with box := scaleToImage s.box 416 416 }) (1 / 2)).filterMap
        (fun s => if s.score < (1 / 2 : ℚ) then none
          else some (detectionOf ["person"] 416 s)) ∧
    detectionOf ["person"] 416 ⟨⟨0, 0, 1, 1⟩, 0, 1⟩ =
      { className := "person"
        probability := 1
        rect := { x := max 0 0, y := max 0 0,
                  width := min 416 1 - max 0 0, height := min 416 1 - max 0 0 } } :=
  predict_detection_fields ["person"] 416 (1 / 2) (1 / 2)
    [(⟨1 / 2, 1 / 2, 1, 1, 1, [1]⟩, ⟨0, 0, 1, 1⟩)] [⟨⟨0, 0, 1, 1⟩, 0, 1⟩]
    (by norm_num [filterBoxes, ScoreFilter.filter, toScored, argmaxIdx, maxVal,
      List.filter, List.getD])
    ⟨⟨0, 0, 1, 1⟩, 0, 1⟩ (by norm_num)

/-! ## C4 — the two distinct thresholds -/

theorem filterMap_display_eq_filter (ct : ℚ) (classNames : List String)
    (maxPix : ℚ) (l : List ScoredBox) :
    (l.filterMap fun sb =>
        if sb.score < ct then none else some (detectionOf classNames maxPix sb)) =
      (l.filter fun sb => decide (ct ≤ sb.score)).map (detectionOf classNames maxPix) := by
  induction l with
  | nil => rfl
  | cons x xs ih =>
    by_cases hx : x.score < ct
    · simp [List.filterMap_cons, List.filter_cons, hx, hx.not_le, ih]
    · simp [List.filterMap_cons, List.filter_cons, hx, not_lt.mp hx, ih]

/-- C4: the pipeline applies two distinct threshold parameters — every box
passing the pre-filter has `score ≥ minScore` there, and after suppression
the final detections are exactly the suppression survivors whose score
reaches the display threshold: a survivor is excluded precisely when its
score is below `classProbThreshold`. -/
theorem predict_two_thresholds (classNames : List String)
    (maxPix iouT ct preT : ℚ) (candidates : List (DecodedBox × CornerBox))
    (scored : List ScoredBox)
    (hf : filterBoxes candidates (1 / 100) = some scored) :
    (∀ sb ∈ ScoreFilter.filter candidates preT, preT ≤ sb.score) ∧
    predict classNames maxPix iouT ct candidates =
      ((suppress (scored.map fun s =>
          { s with box := scaleToImage s.box maxPix maxPix }) iouT).filter
        (fun sb => decide (ct ≤ sb.score))).map (detectionOf classNames maxPix) := by
  constructor
  · intro sb hsb
    unfold ScoreFilter.filter at hsb
    exact of_decide_eq_true (List.mem_filter.mp hsb).2
  · unfold predict
    rw [hf]
    exact filterMap_display_eq_filter ct classNames maxPix _

/-- Witness for C4 at a one-candidate input of score 1. -/
theorem predict_two_thresholds_witness :
    (∀ sb ∈ ScoreFilter.filter [((⟨1 / 2, 1 / 2, 1, 1, 1, [1]⟩ : DecodedBox), (⟨0, 0, 1, 1⟩ : CornerBox))] (1 / 100),
        (1 / 100 : ℚ) ≤ sb.score) ∧
    predict ["person"] 416 (1 / 2) (3 / 4) [(⟨1 / 2, 1 / 2, 1, 1, 1, [1]⟩, ⟨0, 0, 1, 1⟩)] =
      ((suppress (([⟨⟨0, 0, 1, 1⟩, 0, 1⟩] : List ScoredBox).map fun s =>
          { s with box := scaleToImage s.box 416 416 }) (1 / 2)).filter
        (fun sb => decide ((3 / 4 : ℚ) ≤ sb.score))).map (detectionOf ["person"] 416) :=
  predict_two_thresholds ["person"] 416 (1 / 2) (3 / 4) (1 / 100)
    [(⟨1 / 2, 1 / 2, 1, 1, 1, [1]⟩, ⟨0, 0, 1, 1⟩)] [⟨⟨0, 0, 1, 1⟩, 0, 1⟩]
    (by norm_num [filterBoxes, ScoreFilter.filter, toScored, argmaxIdx, maxVal,
      List.filter, List.getD])

/-! ## C5 — suppression output is a sorted subsequence -/

theorem nmsGo_sublist (t : ℚ) (fuel : ℕ) :
    ∀ l : List (ℕ × ScoredBox), (nmsGo t fuel l).Sublist l := by
  induction fuel with
  | zero => intro l; simp [nmsGo]
  | succ n ih =>
    intro l
    cases l with
    | nil => simp [nmsGo]
    | cons x rest =>
      exact ((ih _).trans (List.filter_sublist rest)).cons₂ x

/-- C5: the suppressor's output is a subsequence of the input sorted by
descending score with ties broken by original index ascending: the indexed
output is a sublist of `sortByScore`, `sortByScore` is a permutation
of the indexed input, the output is sorted under `nmsRel` (score
descending, equal scores by index ascending), and `suppress` is its
projection. -/
theorem suppress_sorted_subsequence (boxes : List ScoredBox) (t : ℚ) :
    (suppressIdx boxes t).Sublist (sortByScore boxes) ∧
    (sortByScore boxes).Perm boxes.enum ∧
    List.Sorted nmsRel (suppressIdx boxes t) ∧
    suppress boxes t = (suppressIdx boxes t).map Prod.snd := by
  have hsub : (suppressIdx boxes t).Sublist (sortByScore boxes) :=
    nmsGo_sublist t boxes.length (sortByScore boxes)
  have hsort : List.Sorted nmsRel (sortByScore boxes) :=
    List.sorted_insertionSort nmsRel boxes.enum
  exact ⟨hsub, List.perm_insertionSort nmsRel boxes.enum,
    List.Pairwise.sublist hsub hsort, rfl⟩

/-! ## C6 — threshold monotonicity of suppression -/

/-- C6 counterexample: four boxes (scores 4, 3, 2, 1) for which the
suppressor keeps three boxes at `iouThreshold = 3/10` but only two at the
larger threshold `1/2`: at the low threshold the top box suppresses the
runner-up, whose two heavy overlaps then survive; at the high threshold the
runner-up survives and suppresses both. -/
theorem suppress_not_threshold_monotone :
    ((3 : ℚ) / 10 ≤ 1 / 2) ∧
    ¬ (suppress [⟨⟨15, 0, 50, 35⟩, 0, 4⟩, ⟨⟨0, 0, 35, 35⟩, 0, 3⟩,
          ⟨⟨0, 0, 35, 21⟩, 0, 2⟩, ⟨⟨0, 14, 35, 35⟩, 0, 1⟩] ((3 : ℚ) / 10)).length ≤
        (suppress [⟨⟨15, 0, 50, 35⟩, 0, 4⟩, ⟨⟨0, 0, 35, 35⟩, 0, 3⟩,
          ⟨⟨0, 0, 35, 21⟩, 0, 2⟩, ⟨⟨0, 14, 35, 35⟩, 0, 1⟩] ((1 : ℚ) / 2)).length := by
  constructor
  · norm_num
  · norm_num [suppress, suppressIdx, sortByScore, nmsGo, iou, intersectionArea,
      boxArea, List.insertionSort, List.orderedInsert, List.enum, List.enumFrom,
      nmsRel, List.filter]

theorem nmsGo_two_mono (t1 t2 : ℚ) (h : t1 ≤ t2) (a b : ℕ × ScoredBox) :
    (nmsGo t1 2 [a, b]).length ≤ (nmsGo t2 2 [a, b]).length := by
  by_cases h1 : iou a.2.box b.2.box ≤ t1
  · have h2 : iou a.2.box b.2.box ≤ t2 := h1.trans h
    simp [nmsGo, List.filter, h1, h2]
  · by_cases h2 : iou a.2.box b.2.box ≤ t2 <;>
      simp [nmsGo, List.filter, h1, h2]

theorem nmsGo_three_mono (t1 t2 : ℚ) (h : t1 ≤ t2) (a b c : ℕ × ScoredBox) :
    (nmsGo t1 3 [a, b, c]).length ≤ (nmsGo t2 3 [a, b, c]).length := by
  by_cases h1 : iou a.2.box b.2.box ≤ t1 <;>
  by_cases h2 : iou a.2.box c.2.box ≤ t1 <;>
  by_cases h3 : iou b.2.box c.2.box ≤ t1 <;>
  by_cases g1 : iou a.2.box b.2.box ≤ t2 <;>
  by_cases g2 : iou a.2.box c.2.box ≤ t2 <;>
  by_cases g3 : iou b.2.box c.2.box ≤ t2 <;>
  first
    | (exfalso; linarith)
    | simp [nmsGo, List.filter, h1, h2, h3, g1, g2, g3]

theorem nmsGo_mono_small (t1 t2 : ℚ) (h : t1 ≤ t2) :
    ∀ L : List (ℕ × ScoredBox), L.length ≤ 3 →
      (nmsGo t1 L.length L).length ≤ (nmsGo t2 L.length L).length := by
  intro L hlen
  match L, hlen with
  | [], _ => simp [nmsGo]
  | [a], _ => simp [nmsGo, List.filter]
  | [a, b], _ => exact nmsGo_two_mono t1 t2 h a b
  | [a, b, c], _ => exact nmsGo_three_mono t1 t2 h a b c
  | a :: b :: c :: d :: L', hl =>
    exfalso
    simp [List.length_cons] at hl

/-- C6 (amended): raising `iouThreshold` never shrinks the kept set for
inputs of at most three boxes (for four or more the greedy algorithm is
not monotone in the threshold, as the counterexample shows). -/
theorem suppress_threshold_monotone_small (boxes : List ScoredBox)
    (t1 t2 : ℚ) (hlen : boxes.length ≤ 3) (h : t1 ≤ t2) :
    (suppress boxes t1).length ≤ (suppress boxes t2).length := by
  unfold suppress suppressIdx
  rw [List.length_map, List.length_map]
  have hL : (sortByScore boxes).length = boxes.length :=
    (List.perm_insertionSort nmsRel boxes.enum).length_eq.trans List.enum_length
  rw [← hL]
  exact nmsGo_mono_small t1 t2 h (sortByScore boxes) (hL.trans_le hlen)

/-- Witness for the amended C6 on a concrete two-box input with
thresholds 0 ≤ 1. -/
theorem suppress_threshold_monotone_small_witness :
    (suppress [⟨⟨0, 0, 2, 2⟩, 0, 1⟩, ⟨⟨0, 0, 2, 1⟩, 0, 2⟩] 0).length ≤
      (suppress [⟨⟨0, 0, 2, 2⟩, 0, 1⟩, ⟨⟨0, 0, 2, 1⟩, 0, 2⟩] 1).length :=
  suppress_threshold_monotone_small [⟨⟨0, 0, 2, 2⟩, 0, 1⟩, ⟨⟨0, 0, 2, 1⟩, 0, 2⟩]
    0 1 (by norm_num) (by norm_num)

/-! ## C9 — grid decoding formulas -/

/-- C9: for every grid cell `(row, col)` and anchor index `a`, the decoder
emits a box with `centerX = (σ(tx) + col)/gridW`,
`centerY = (σ(ty) + row)/gridH`, `width = anchors[a].width · e(tw)/gridW`,
`height = anchors[a].height · e(th)/gridH`, `confidence = σ(objectness)`
and `classProbs[i] = σ(classLogit_i)`; the decoded list has length
`gridH × gridW × numAnchors` and contains that box. -/
theorem decode_formulas (σ e : ℚ → ℚ) (raw : ℕ → ℕ → ℕ → ℕ → ℚ)
    (anchors : List Anchor) (numClasses gridH gridW row col a : ℕ)
    (hr : row < gridH) (hc : col < gridW) (ha : a < anchors.length) :
    (GridDecoder.decode σ e raw anchors numClasses gridH gridW).length =
      gridH * gridW * anchors.length ∧
    decodeCell σ e raw anchors numClasses gridH gridW row col a ∈
      GridDecoder.decode σ e raw anchors numClasses gridH gridW ∧
    (decodeCell σ e raw anchors numClasses gridH gridW row col a).centerX =
      (σ (raw row col a 0) + col) / gridW ∧
    (decodeCell σ e raw anchors numClasses gridH gridW row col a).centerY =
      (σ (raw row col a 1) + row) / gridH ∧
    (decodeCell σ e raw anchors numClasses gridH gridW row col a).width =
      anchors[a].width * e (raw row col a 2) / gridW ∧
    (decodeCell σ e raw anchors numClasses gridH gridW row col a).height =
      anchors[a].height * e (raw row col a 3) / gridH ∧
    (decodeCell σ e raw anchors numClasses gridH gridW row col a).confidence =
      σ (raw row col a 4) ∧
    (decodeCell σ e raw anchors numClasses gridH gridW row col a).classProbs.length =
      numClasses ∧
    ∀ i < numClasses,
      (decodeCell σ e raw anchors numClasses gridH gridW row col a).classProbs.getD i 0 =
        σ (raw row col a (5 + i)) := by
  refine ⟨?_, ?_, ?_, ?_, ?_, ?_, rfl, ?_, ?_⟩
  · simp [GridDecoder.decode, List.length_flatMap, Function.comp_def,
      List.map_const', List.sum_replicate, smul_eq_mul, mul_assoc]
  · exact List.mem_flatMap.mpr ⟨row, List.mem_range.mpr hr,
      List.mem_flatMap.mpr ⟨col, List.mem_range.mpr hc,
        List.mem_map.mpr ⟨a, List.mem_range.mpr ha, rfl⟩⟩⟩
  · rfl
  · rfl
  · simp [decodeCell, List.getElem?_eq_getElem ha]
  · simp [decodeCell, List.getElem?_eq_getElem ha]
  · simp [decodeCell]
  · intro i hi
    have hlen : i < ((List.range numClasses).map
        (fun j => σ (raw row col a (5 + j)))).length := by
      simpa using hi
    rw [decodeCell]
    rw [List.getD_eq_getElem _ _ hlen]
    simp

/-- Witness for C9 with the identity squashing functions on a 1×1 grid
with one anchor and one class. -/
theorem decode_formulas_witness :
    (GridDecoder.decode id id (fun _ _ _ _ => 0) [⟨1, 1⟩] 1 1 1).length =
      1 * 1 * [(⟨1, 1⟩ : Anchor)].length ∧
    decodeCell id id (fun _ _ _ _ => 0) [⟨1, 1⟩] 1 1 1 0 0 0 ∈
      GridDecoder.decode id id (fun _ _ _ _ => 0) [⟨1, 1⟩] 1 1 1 ∧
    (decodeCell id id (fun _ _ _ _ => 0) [⟨1, 1⟩] 1 1 1 0 0 0).centerX =
      (id ((fun _ _ _ _ => (0 : ℚ)) 0 0 0 0) + (0 : ℕ)) / (1 : ℕ) ∧
    (decodeCell id id (fun _ _ _ _ => 0) [⟨1, 1⟩] 1 1 1 0 0 0).centerY =
      (id ((fun _ _ _ _ => (0 : ℚ)) 0 0 0 1) + (0 : ℕ)) / (1 : ℕ) ∧
    (decodeCell id id (fun _ _ _ _ => 0) [⟨1, 1⟩] 1 1 1 0 0 0).width =
      [(⟨1, 1⟩ : Anchor)][0].width * id ((fun _ _ _ _ => (0 : ℚ)) 0 0 0 2) / (1 : ℕ) ∧
    (decodeCell id id (fun _ _ _ _ => 0) [⟨1, 1⟩] 1 1 1 0 0 0).height =
      [(⟨1, 1⟩ : Anchor)][0].height * id ((fun _ _ _ _ => (0 : ℚ)) 0 0 0 3) / (1 : ℕ) ∧
    (decodeCell id id (fun _ _ _ _ => 0) [⟨1, 1⟩] 1 1 1 0 0 0).confidence =
      id ((fun _ _ _ _ => (0 : ℚ)) 0 0 0 4) ∧
    (decodeCell id id (fun _ _ _ _ => 0) [⟨1, 1⟩] 1 1 1 0 0 0).classProbs.length = 1 ∧
    ∀ i < 1,
      (decodeCell id id (fun _ _ _ _ => 0) [⟨1, 1⟩] 1 1 1 0 0 0).classProbs.getD i 0 =
        id ((fun _ _ _ _ => (0 : ℚ)) 0 0 0 (5 + i)) :=
  decode_formulas id id (fun _ _ _ _ => 0) [⟨1, 1⟩] 1 1 1 0 0 0
    (by norm_num) (by norm_num) (by norm_num)

/-! ## C10 — detections stay inside the model-input square -/

/-- C10: every detection `predict` returns has its rect inside the
model-input square: `0 ≤ x`, `0 ≤ y`, `x + width ≤ maxPix`,
`y + height ≤ maxPix` — because `x = max(0, left)`,
`x + width = min(maxPix, right)` and likewise vertically. -/
theorem predict_rects_in_bounds (classNames : List String)
    (maxPix iouT ct : ℚ) (candidates : List (DecodedBox × CornerBox))
    (d : IDetectedObject)
    (hd : d ∈ predict classNames maxPix iouT ct candidates) :
    0 ≤ d.rect.x ∧ 0 ≤ d.rect.y ∧
    d.rect.x + d.rect.width ≤ maxPix ∧ d.rect.y + d.rect.height ≤ maxPix := by
  unfold predict at hd
  rcases hcase : filterBoxes candidates (1 / 100) with _ | scored
  · rw [hcase] at hd
    simp at hd
  · rw [hcase] at hd
    rcases List.mem_filterMap.mp hd with ⟨sb, hsb, heq⟩
    by_cases hlt : sb.score < ct
    · simp [hlt] at heq
    · simp only [hlt, if_false] at heq
      cases heq
      unfold detectionOf clampBox
      refine ⟨le_max_left _ _, le_max_left _ _, ?_, ?_⟩
      · have := min_le_left maxPix sb.box.right
        dsimp only
        linarith
      · have := min_le_left maxPix sb.box.bottom
        dsimp only
        linarith

/-- Witness for C10: a concrete run of `predict` keeping one detection,
whose rect satisfies the four bounds. -/
theorem predict_rects_in_bounds_witness :
    0 ≤ (⟨"person", 1, ⟨0, 0, 416, 416⟩⟩ : IDetectedObject).rect.x ∧
    0 ≤ (⟨"person", 1, ⟨0, 0, 416, 416⟩⟩ : IDetectedObject).rect.y ∧
    (⟨"person", 1, ⟨0, 0, 416, 416⟩⟩ : IDetectedObject).rect.x +
      (⟨"person", 1, ⟨0, 0, 416, 416⟩⟩ : IDetectedObject).rect.width ≤ 416 ∧
    (⟨"person", 1, ⟨0, 0, 416, 416⟩⟩ : IDetectedObject).rect.y +
      (⟨"person", 1, ⟨0, 0, 416, 416⟩⟩ : IDetectedObject).rect.height ≤ 416 :=
  predict_rects_in_bounds ["person"] 416 (1 / 2) (1 / 2)
    [(⟨1 / 2, 1 / 2, 1, 1, 1, [1]⟩, ⟨0, 0, 1, 1⟩)]
    ⟨"person", 1, ⟨0, 0, 416, 416⟩⟩
    (by norm_num [predict, filterBoxes, ScoreFilter.filter, toScored, argmaxIdx,
      maxVal, List.filter, scaleToImage, suppress, suppressIdx, sortByScore,
      nmsGo, detectionOf, clampBox, List.insertionSort, List.orderedInsert,
      List.enum, List.enumFrom, List.filterMap, List.getD])
